import Mathlib

/-!
Verification development for the BCIT class-schedule monitor (`app.py`).

The file shallowly embeds the scrape-parse-evaluate pipeline of the source:

* string helpers (`substr`, case folding, whitespace normalization) model the
  Python `in` operator, `str.lower`/`str.upper` (ASCII scope) and the
  `re.sub(r'\s+', ' ', ...)` / `re.sub(r',(?!\s)', ', ', ...)` cleanups;
* `parse_date_span` models the date-range parser, with the two calls into the
  external `dateutil` library replaced by an explicit executable model of the
  token shapes that can actually reach them (month-name/day/year tokens);
  a raised Python exception is represented as `Except.error`;
* `_extract_seats`, `_is_full` and `scrapeRows` model the row parser;
* `find_level_table` models the two-strategy table locator over a rose-tree
  document model of the BeautifulSoup soup;
* `fetch_html` models the retry/backoff fetcher over an injected sequence of
  attempt outcomes and jitter values;
* `summarize_result` models the evaluator, with the module-level configuration
  (`SPECIFIC_INTAKE_KEYWORDS`, `CHECK_PRE_APRIL_YEAR`) and the clock
  (`datetime.now()`) passed as explicit parameters.
-/

namespace BCIT

/-! ## Characters and strings -/

/-- Python `\s` whitespace (ASCII scope): space, tab, newline, carriage
return, vertical tab, form feed. -/
def isWs (c : Char) : Bool :=
  c = ' ' || c = '\t' || c = '\n' || c = '\r' || c = '\x0b' || c = '\x0c'

/-- Python `\w` word character (ASCII scope): alphanumeric or underscore. -/
def isWordChar (c : Char) : Bool :=
  c.isAlphanum || c = '_'

/-- Contiguous-sublist test on character lists (the needle occurs starting
at the head, or somewhere in the tail). -/
def substrAux (needle : List Char) : List Char → Bool
  | [] => needle.isEmpty
  | c :: rest => needle.isPrefixOf (c :: rest) || substrAux needle rest

/-- Python `needle in hay` substring test. -/
def substr (needle hay : String) : Bool :=
  substrAux needle.data hay.data

/-- Python `str.lower` (ASCII scope). -/
def lowerStr (s : String) : String :=
  String.mk (s.data.map Char.toLower)

/-- Python `str.upper` (ASCII scope). -/
def upperStr (s : String) : String :=
  String.mk (s.data.map Char.toUpper)

/-- Digit list to number, as Python `int` on a digit string. -/
def digitsToNat (ds : List Char) : Nat :=
  ds.foldl (fun a c => a * 10 + (c.toNat - '0'.toNat)) 0

/-- Python `str.strip()` on the left (ASCII whitespace scope). -/
def dropWsLeft (cs : List Char) : List Char :=
  cs.dropWhile isWs

/-- Python `str.strip()` (ASCII whitespace scope). -/
def stripWs (cs : List Char) : List Char :=
  ((cs.dropWhile isWs).reverse.dropWhile isWs).reverse

/-- Model of `re.sub(r'\s+', ' ', _)`: collapse each whitespace run to one space.
The flag records whether the previous character was part of a whitespace
run already emitted as a single space. -/
def collapseWsAux : Bool → List Char → List Char
  | _, [] => []
  | prevWs, c :: rest =>
    if isWs c then
      if prevWs then collapseWsAux true rest
      else ' ' :: collapseWsAux true rest
    else c :: collapseWsAux false rest

/-- Model of `re.sub(r',(?!\s)', ', ', _)`: a space is inserted after every comma not
already followed by whitespace (a trailing comma also gets one, since the
lookahead succeeds at end of string). -/
def commaSpace : List Char → List Char
  | [] => []
  | c :: rest =>
    if c = ',' then
      match rest with
      | [] => [',', ' ']
      | d :: _ =>
        if isWs d then ',' :: commaSpace rest
        else ',' :: ' ' :: commaSpace rest
    else c :: commaSpace rest

/-- The cleanup applied to date text both in `parse_date_span` (line 243-244)
and when storing `date_text` in a record (line 304): strip, collapse
whitespace runs (which subsumes the `replace('\n', ' ')` step), then ensure
a space follows every comma. -/
def cleanText (s : String) : String :=
  String.mk (commaSpace (collapseWsAux false (stripWs s.data)))

/-! ## Calendar dates -/

/-- A calendar date as produced by the parsing pipeline. -/
structure Date where
  year : Nat
  month : Nat
  day : Nat
deriving DecidableEq, Repr

/-- Lexicographic date comparison; `datetime` comparison in the source
restricted to the date components (start dates are parsed from `YYYY-MM-DD`
strings, so they sit at midnight, and midnight of day `d` is `<=` any clock
reading of day `d`; hence `start_dt <= now_dt` holds iff the start date is
at or before the clock's date). -/
def dateLe (a b : Date) : Bool :=
  if a.year < b.year then true
  else if b.year < a.year then false
  else if a.month < b.month then true
  else if b.month < a.month then false
  else a.day ≤ b.day

/-- Gregorian leap-year test, as in Python's `calendar`/`datetime`. -/
def isLeap (y : Nat) : Bool :=
  y % 4 = 0 && (y % 100 ≠ 0 || y % 400 = 0)

/-- Days in a month, as validated by `datetime`. -/
def daysInMonth (y m : Nat) : Nat :=
  if m = 2 then (if isLeap y then 29 else 28)
  else if m = 4 || m = 6 || m = 9 || m = 11 then 30
  else 31

/-! ## Records (one parsed table row)

The source stores rows as dicts with `start_date_iso`/`end_date_iso` strings
(`strftime("%Y-%m-%d")` of the parsed dates, or `None`); `summarize_result`
re-parses them with `datetime.fromisoformat`, which is the identity round
trip on valid dates and skips `None`. The embedding therefore carries the
optional dates directly. -/

structure Record where
  status_text : String
  date_text : String
  start_date : Option Date
  end_date : Option Date
  year : Option Nat
  seats_left : Option Nat
  is_full : Bool
deriving DecidableEq, Repr

/-! ## Evaluator (`summarize_result`, lines 318-367)

The module-level configuration `SPECIFIC_INTAKE_KEYWORDS` and
`CHECK_PRE_APRIL_YEAR` and the clock `datetime.now()` become the parameters
`kws`, `cutYear`, `now`. -/

/-- The record loop of `summarize_result` (lines 324-349): builds the
`specific_statuses` and `pre_april_opens` accumulators in record order. -/
def summarizeLoop (kws : List String) (cutYear : Nat) (now : Date) :
    List Record → List String × List String
  | [] => ([], [])
  | rec :: rest =>
    let tail := summarizeLoop kws cutYear now rest
    match rec.start_date with
    | none => tail
    | some d =>
      if dateLe d now then tail
      else
        let s : List String :=
          if kws.any (fun k => substr k rec.date_text) then
            [if rec.is_full then "FULL"
             else if rec.seats_left.isSome ||
                 substr "seats left" (lowerStr rec.status_text) then "OPEN"
             else "UNKNOWN"]
          else []
        let p : List String :=
          if d.year = cutYear ∧ d.month ≤ 3 then
            if rec.seats_left.isSome ||
                substr "seats left" (lowerStr rec.status_text) then
              [rec.date_text ++ ": " ++ rec.status_text]
            else []
          else []
        (s ++ tail.1, p ++ tail.2)

/-- The aggregate returned by `summarize_result`. -/
structure Summary where
  specific_status : String
  pre_april_msg : String
  pre_april_list : List String
  specific_matches_count : Nat
deriving DecidableEq, Repr

/-- Embedding of `summarize_result` (lines 318-367). In the roll-up the source takes
`list(uq)[0]` from the Python set `uq` only in the branch where the set is a
singleton, so `List.eraseDups` (which keeps first occurrences) is an
order-faithful model of `set(...)` there. -/
def summarize_result (kws : List String) (cutYear : Nat) (now : Date)
    (records : List Record) : Summary :=
  let acc := summarizeLoop kws cutYear now records
  let specific_statuses := acc.1
  let pre_april_opens := acc.2
  let specific_status :=
    if specific_statuses.isEmpty then "UNKNOWN (no match)"
    else
      let uq := specific_statuses.eraseDups
      let base := if uq.length = 1 then uq.headD "" else "MIXED"
      if 1 < specific_statuses.length then
        base ++ " (" ++ toString specific_statuses.length ++ " intakes)"
      else base
  let pre_msg :=
    if pre_april_opens.isEmpty then "No pre-April opens"
    else "OPEN pre-April: " ++ String.intercalate ", " pre_april_opens
  { specific_status := specific_status
    pre_april_msg := pre_msg
    pre_april_list := pre_april_opens
    specific_matches_count := specific_statuses.length }

/-! ## Spec-side definitions for the evaluator claims

These follow the wording of the specification, to be compared with the
source embedding above. -/

/-- Spec wording: a record is considered only when its `start_date` is
present and strictly after `now`. -/
def isFutureRec (now : Date) (rec : Record) : Bool :=
  match rec.start_date with
  | none => false
  | some d => !dateLe d now

/-- Spec wording: a record qualifies for the specific-intake group when its
`date_text` contains some configured keyword as a case-sensitive literal
substring. -/
def matchesKeyword (kws : List String) (rec : Record) : Bool :=
  kws.any (fun k => substr k rec.date_text)

/-- Spec wording: classify a qualifying record as FULL / OPEN / UNKNOWN. -/
def classifySpec (rec : Record) : String :=
  if rec.is_full then "FULL"
  else if rec.seats_left.isSome ||
      substr "seats left" (lowerStr rec.status_text) then "OPEN"
  else "UNKNOWN"

/-- Spec wording: open-seat evidence (`seats_left` present or the literal
substring "seats left" in the status text, case-insensitively). -/
def openEvidence (rec : Record) : Bool :=
  rec.seats_left.isSome || substr "seats left" (lowerStr rec.status_text)

/-- Spec wording: the classifications of the qualifying records, in record
order. -/
def qualifyingClassifications (kws : List String) (now : Date)
    (records : List Record) : List String :=
  ((records.filter (isFutureRec now)).filter (matchesKeyword kws)).map classifySpec

/-- Spec wording for the aggregate status over the qualifying
classifications: "UNKNOWN (no match)" when none; the single distinct
classification when exactly one; "MIXED" when several; with the
" (<count> intakes)" suffix whenever more than one record qualifies. -/
def specAggregate (cs : List String) : String :=
  if cs.isEmpty then "UNKNOWN (no match)"
  else
    (match cs.eraseDups with
     | [c] => c
     | _ => "MIXED") ++
    (if 1 < cs.length then " (" ++ toString cs.length ++ " intakes)" else "")

/-- Spec wording: pre-cutoff condition on a future record (start year equals
the cutoff year, start month at most 3, open-seat evidence). -/
def preCutoffSpec (cutYear : Nat) (rec : Record) : Bool :=
  match rec.start_date with
  | none => false
  | some d => (d.year = cutYear && d.month ≤ 3) && openEvidence rec

/-! ## Date range parser (`parse_date_span`, lines 237-259)

The source calls `dateutil.parser.parse` twice: on `"<group1> <year>"` after
the primary regex matches, and on the first "` to `"-segment in the
fallback.  The external library is modelled by explicit executable
functions, faithful on the token shapes those call sites produce
(month-name/numeric-month token, day token, optional 4-digit year token);
the library's wider repertoire (two-digit years, day-first permutations,
lone years, and so on) is outside the modelled scope and mapped to parse
failure.  A raised Python exception is `Except.error`. -/

/-- Month names accepted by the `dateutil` parser info (full names, 3-letter
abbreviations, and "sept"), lower case. -/
def monthNames : List (String × Nat) :=
  [("jan", 1), ("january", 1), ("feb", 2), ("february", 2),
   ("mar", 3), ("march", 3), ("apr", 4), ("april", 4),
   ("may", 5), ("jun", 6), ("june", 6), ("jul", 7), ("july", 7),
   ("aug", 8), ("august", 8), ("sep", 9), ("sept", 9), ("september", 9),
   ("oct", 10), ("october", 10), ("nov", 11), ("november", 11),
   ("dec", 12), ("december", 12)]

/-- Case-insensitive month-name lookup. -/
def monthOfName (w : String) : Option Nat :=
  monthNames.lookup (lowerStr w)

/-- A token that is a nonempty digit run, as a number. -/
def numToken (s : String) : Option Nat :=
  if s.data ≠ [] ∧ s.data.all Char.isDigit then some (digitsToNat s.data)
  else none

/-- Model of `dateutil.parser.parse` on a "<month-word> <day> <year>" token
triple as produced by the primary branch (line 249-250): a month name or a
numeric month 1-12, and a day valid for that month and year; anything else
raises in the library and is `none` here. -/
def dateutilMDY (w : String) (d y : Nat) : Option Date :=
  match monthOfName w with
  | some m => if 1 ≤ d ∧ d ≤ daysInMonth y m then some ⟨y, m, d⟩ else none
  | none =>
    match numToken w with
    | some mv =>
      if (1 ≤ mv ∧ mv ≤ 12) ∧ 1 ≤ d ∧ d ≤ daysInMonth y mv then
        some ⟨y, mv, d⟩
      else none
    | none => none

/-- Tokenizer for the free-form `dateutil` model: maximal runs of
non-whitespace, non-comma characters. -/
def tokenizeAux (acc : List Char) : List Char → List (List Char)
  | [] => if acc.isEmpty then [] else [acc.reverse]
  | c :: rest =>
    if isWs c || c = ',' then
      if acc.isEmpty then tokenizeAux [] rest
      else acc.reverse :: tokenizeAux [] rest
    else tokenizeAux (c :: acc) rest

/-- Tokens of a string. -/
def tokensOf (s : String) : List String :=
  (tokenizeAux [] s.data).map String.mk

/-- A 4-digit year token. -/
def yearToken (s : String) : Option Nat :=
  if s.data.length = 4 then numToken s else none

/-- Model of the free-form `dateutil.parser.parse` call in the fallback
branch (line 256): "<month-word> <day>" with the year defaulted from the
library's implicit `datetime.now()` default (passed here as `today`), or
"<month-word> <day>[,] <year>" with a 4-digit year.  Other token shapes are
outside the modelled scope and map to failure. -/
def dateutilFree (today : Date) (s : String) : Option Date :=
  match tokensOf s with
  | [w, d] =>
    match monthOfName w, numToken d with
    | some m, some dv =>
      if 1 ≤ dv ∧ dv ≤ daysInMonth today.year m then some ⟨today.year, m, dv⟩
      else none
    | _, _ => none
  | [w, d, y] =>
    match monthOfName w, numToken d, yearToken y with
    | some m, some dv, some yv =>
      if 1 ≤ dv ∧ dv ≤ daysInMonth yv m then some ⟨yv, m, dv⟩ else none
    | _, _, _ => none
  | _ => none

/-- The anchored primary pattern
`(\w+\s+\d{1,2})\s+to\s+(\w+\s+\d{1,2}),\s*(\d{4})` of line 247, matched
with `re.match` semantics.  Because `\w`, `\s` and `\d` classes are
pairwise disjoint and each run is followed by a different class (or a
literal), regex backtracking can never recover from a failed greedy run, so
the match is the following deterministic scan: the digit runs for
`\d{1,2}` must be maximal runs of length 1 or 2, and `(\d{4})` takes the
first four digits of a run of length at least 4 (the regex has no trailing
anchor, so trailing text is ignored). -/
def matchPrimary (s : String) : Option (String × Nat × String × Nat × Nat) :=
  let cs := s.data
  let w1 := cs.takeWhile isWordChar
  let r1 := cs.dropWhile isWordChar
  if w1.isEmpty then none
  else if (r1.takeWhile isWs).isEmpty then none
  else
    let r2 := r1.dropWhile isWs
    let d1 := r2.takeWhile Char.isDigit
    if d1.length = 0 ∨ 2 < d1.length then none
    else
      let r3 := r2.dropWhile Char.isDigit
      if (r3.takeWhile isWs).isEmpty then none
      else
        match r3.dropWhile isWs with
        | 't' :: 'o' :: r4 =>
          if (r4.takeWhile isWs).isEmpty then none
          else
            let r5 := r4.dropWhile isWs
            let w2 := r5.takeWhile isWordChar
            if w2.isEmpty then none
            else
              let r6 := r5.dropWhile isWordChar
              if (r6.takeWhile isWs).isEmpty then none
              else
                let r7 := r6.dropWhile isWs
                let d2 := r7.takeWhile Char.isDigit
                if d2.length = 0 ∨ 2 < d2.length then none
                else
                  match r7.dropWhile Char.isDigit with
                  | ',' :: r8 =>
                    let r9 := r8.dropWhile isWs
                    let ys := r9.takeWhile Char.isDigit
                    if 4 ≤ ys.length then
                      some (String.mk w1, digitsToNat d1, String.mk w2,
                        digitsToNat d2, digitsToNat (ys.take 4))
                    else none
                  | _ => none
        | _ => none

/-- The prefix of the string before the first literal occurrence of
`" to "`, or the whole string when absent: `cleaned.split(' to ')[0] if
' to ' in cleaned else cleaned` (line 255). -/
def beforeTo : List Char → List Char
  | ' ' :: 't' :: 'o' :: ' ' :: _ => []
  | c :: rest => c :: beforeTo rest
  | [] => []

/-- Embedding of `parse_date_span` (lines 237-259), returning the source's
`(start_date, end_date, year)` triple.  The primary branch (lines 247-251)
is not protected by the `try` of the fallback, so a failing library parse
there propagates as `Except.error`; the fallback (lines 253-259) catches
every failure and yields the all-absent triple.  `today` is the implicit
`datetime.now()` default of the library. -/
def parse_date_span (today : Date) (date_text : String) :
    Except String (Option Date × Option Date × Option Nat) :=
  let cleaned := cleanText date_text
  match matchPrimary cleaned with
  | some (w1, d1, w2, d2, y) =>
    match dateutilMDY w1 d1 y, dateutilMDY w2 d2 y with
    | some s, some e => .ok (some s, some e, some y)
    | _, _ => .error "Unknown string format"
  | none =>
    match dateutilFree today (String.mk (beforeTo cleaned.data)) with
    | some dt => .ok (some dt, none, some dt.year)
    | none => .ok (none, none, none)

/-! ## Row parser (`_extract_seats`, `_is_full`, `scrape_level4_rows`) -/

/-- Tail of the seats pattern after "seat[s]": whitespace then "left" (the
input is already lowercased); `ds` is the digit run captured by `(\d+)`. -/
def seatsFinish (ds rest2 : List Char) : Option Nat :=
  if (rest2.takeWhile isWs).isEmpty then none
  else
    match rest2.dropWhile isWs with
    | 'l' :: 'e' :: 'f' :: 't' :: _ => some (digitsToNat ds)
    | _ => none

/-- Match of `(\d+)\s+seats?\s+left` (case-insensitive) starting exactly at
the head of `cs`: maximal digit run, whitespace, "seat", optional "s",
whitespace, "left".  As in `matchPrimary`, greedy runs cannot backtrack
usefully (`\d`/`\s` are disjoint, and after an accepted "s" only
whitespace can follow), so the scan is deterministic. -/
def seatsAt (cs : List Char) : Option Nat :=
  let ds := cs.takeWhile Char.isDigit
  if ds.isEmpty then none
  else
    let r1 := cs.dropWhile Char.isDigit
    if (r1.takeWhile isWs).isEmpty then none
    else
      match (r1.dropWhile isWs).map Char.toLower with
      | 's' :: 'e' :: 'a' :: 't' :: rest =>
        match rest with
        | 's' :: r => seatsFinish ds r
        | r => seatsFinish ds r
      | _ => none

/-- Leftmost-match scan for `re.search` of the seats pattern: try each start
position from the left; a match must start on a digit. -/
def seatsSearch : List Char → Option Nat
  | [] => none
  | c :: rest =>
    match seatsAt (c :: rest) with
    | some n => some n
    | none => seatsSearch rest

/-- Embedding of `_extract_seats` (lines 261-266): first "N seats left" pattern in the
status text, case-insensitively. -/
def _extract_seats (status_text : String) : Option Nat :=
  seatsSearch status_text.data

/-- Embedding of `_is_full` (lines 268-269). -/
def _is_full (status_text : String) : Bool :=
  substr "FULL" (upperStr status_text)

/-- One data row of the table to a record (`scrape_level4_rows` loop body,
lines 298-311); the caller has already extracted each cell's text with
`get_text(" ", strip=True)`.  Rows reaching this function have at least two
cells.  A raised exception from `parse_date_span` propagates. -/
def rowToRecord (today : Date) (cells : List String) : Except String Record :=
  match cells with
  | c0 :: c1 :: _ =>
    match parse_date_span today c1 with
    | .error e => .error e
    | .ok (s, e, y) =>
      .ok { status_text := c0
            date_text := cleanText c1
            start_date := s
            end_date := e
            year := y
            seats_left := _extract_seats c0
            is_full := _is_full c0 }
  | _ => .error "row too short"

/-- The row loop of `scrape_level4_rows` (lines 294-311) over the rows after
the header: rows with fewer than two cells are skipped. -/
def scrapeRowsGo (today : Date) : List (List String) → Except String (List Record)
  | [] => .ok []
  | r :: rs =>
    if r.length < 2 then scrapeRowsGo today rs
    else
      match rowToRecord today r with
      | .error e => .error e
      | .ok rec =>
        match scrapeRowsGo today rs with
        | .error e => .error e
        | .ok recs => .ok (rec :: recs)

/-- Embedding of `scrape_level4_rows` restricted to its row-parsing part (lines 292-313):
the table is given as the per-cell texts of its `tr` rows, the first row
(assumed header) is skipped. -/
def scrapeRows (today : Date) (rows : List (List String)) :
    Except String (List Record) :=
  match rows with
  | [] => .ok []
  | _header :: rest => scrapeRowsGo today rest

/-! ## Table locator (`find_level_table`, lines 271-282)

The BeautifulSoup document is a rose tree of elements and text nodes;
`find_all` returns elements in pre-order (document order) and
`h.find_next('table')` is the first table strictly after `h` in that order
(which includes `h`'s own descendants). -/

inductive Node where
  | text (s : String)
  | elem (tag : String) (children : List Node)

mutual

/-- The text-node strings of a subtree, in document order. -/
def texts : Node → List String
  | .text s => [s]
  | .elem _ cs => textsL cs

/-- The text-node strings of a forest, in document order. -/
def textsL : List Node → List String
  | [] => []
  | n :: ns => texts n ++ textsL ns

end

/-- Model of `get_text(sep, strip=True)`: each text fragment stripped, empty
fragments dropped, the rest joined with the separator. -/
def getText (sep : String) (n : Node) : String :=
  String.intercalate sep
    (((texts n).map (fun s => String.mk (stripWs s.data))).filter (· ≠ ""))

mutual

/-- All elements of a subtree in pre-order (each element keeps its own
subtree): the traversal order of `find_all` / `find_next`. -/
def subElems : Node → List Node
  | .text _ => []
  | .elem t cs => .elem t cs :: subElemsL cs

/-- All elements of a forest in pre-order. -/
def subElemsL : List Node → List Node
  | [] => []
  | n :: ns => subElems n ++ subElemsL ns

end

/-- Tag of an element (text nodes have none). -/
def tagOf : Node → Option String
  | .text _ => none
  | .elem t _ => some t

/-- A heading element of level 2-4. -/
def isHeading (n : Node) : Bool :=
  tagOf n = some "h2" || tagOf n = some "h3" || tagOf n = some "h4"

/-- A heading whose stripped text contains the target level label,
case-insensitively (line 274). -/
def isMatchingHeading (target : String) (n : Node) : Bool :=
  isHeading n && substr (lowerStr target) (lowerStr (getText "" n))

/-- A table element. -/
def isTable (n : Node) : Bool :=
  tagOf n = some "table"

/-- Model of `DATE_RX` (lines 205-208) matching at the head of `cs`, the word
boundary before the month being the caller's duty:  a 3-letter month
abbreviation (case-insensitive), whitespace, then a digit run.  Working
out the backtracking of `\d{1,2}(?:,?\s*\d{4})?\b` against a maximal digit
run of length `k` followed by a non-digit: the optional year group either
takes 4 further digits of the same run (`k = 5` or `k = 6`) or is
separated by the comma/whitespace — in which case the `\b` after
`\d{1,2}` already closes the match — so the pattern accepts exactly
`k ∈ {1, 2, 5, 6}` with a non-word character (or the end) after the run. -/
def dateRxAt : List Char → Bool
  | m1 :: m2 :: m3 :: rest =>
    (monthNames.lookup (String.mk [m1.toLower, m2.toLower, m3.toLower])).isSome &&
    !(rest.takeWhile isWs).isEmpty &&
    (let r1 := rest.dropWhile isWs
     let ds := r1.takeWhile Char.isDigit
     (ds.length = 1 || ds.length = 2 || ds.length = 5 || ds.length = 6) &&
     (match r1.dropWhile Char.isDigit with
      | [] => true
      | c :: _ => !isWordChar c))
  | _ => false

/-- Model of the `re.search` scan for `DATE_RX`: try each start position left to right;
the `\b` holds when the previous character is absent or a non-word
character. -/
def dateRxFrom (prev : Option Char) : List Char → Bool
  | [] => false
  | c :: rest =>
    ((prev.all fun p => !isWordChar p) && dateRxAt (c :: rest)) ||
      dateRxFrom (some c) rest

/-- Model of `DATE_RX.search` on a string. -/
def dateRxSearch (s : String) : Bool :=
  dateRxFrom none s.data

/-- The heading loop of `find_level_table` (lines 273-277) over the
pre-order element list: for each matching heading, the first table after
it in document order; on failure continue with later headings. -/
def primaryScan (target : String) : List Node → Option Node
  | [] => none
  | n :: rest =>
    if isMatchingHeading target n then
      match rest.find? isTable with
      | some t => some t
      | none => primaryScan target rest
    else primaryScan target rest

/-- The fallback loop of `find_level_table` (lines 279-281): the first
table in document order whose joined text matches `DATE_RX`. -/
def fallbackScan (ns : List Node) : Option Node :=
  ns.find? fun n => isTable n && dateRxSearch (getText " " n)

/-- Embedding of `find_level_table` (lines 271-282) on the top-level forest of the
document, with `TARGET_LEVEL` as the `target` parameter. -/
def find_level_table (target : String) (doc : List Node) : Option Node :=
  match primaryScan target (subElemsL doc) with
  | some t => some t
  | none => fallbackScan (subElemsL doc)

/-! Spec-side locator, following the specification's wording. -/

/-- Spec wording of the primary strategy: the FIRST heading of level 2-4
whose text contains the label (case-insensitively), paired with the first
table following it in document order (`none` when no heading matches,
`some none` when the first matching heading has no following table). -/
def specFirstHeadingTable (target : String) : List Node → Option (Option Node)
  | [] => none
  | n :: rest =>
    if isMatchingHeading target n then some (rest.find? isTable)
    else specFirstHeadingTable target rest

/-- Spec wording of the locator: the primary strategy's table when it
yields one; otherwise the first date-shaped table; otherwise NotFound. -/
def locateSpec (target : String) (doc : List Node) : Option Node :=
  match specFirstHeadingTable target (subElemsL doc) with
  | some (some t) => some t
  | _ => fallbackScan (subElemsL doc)

/-! ## Fetcher (`fetch_html`, lines 210-235)

The network is injected as a sequence of per-attempt outcomes: an exception
raised by `SESSION.get`/`raise_for_status`, or a response body.  The jitter
of `random.uniform(0, 1.5)` is injected as a rational-valued sequence.  The
function returns the result together with the list of sleep durations in
order. -/

/-- One attempt against the network: a raised request exception, or an HTTP
200 body. -/
inductive AttemptOutcome where
  | exn (msg : String)
  | page (body : String)
deriving DecidableEq, Repr

/-- Embedding of `SUSPICIOUS_MARKERS` (lines 202-204). -/
def SUSPICIOUS_MARKERS : List String :=
  ["attention required", "access denied", "just a moment",
   "verify you are a human"]

/-- The acceptance test of lines 222-228 on a single attempt: an exception
is the failure itself; a body fails when its lowercase form contains a
bot-defense marker or it is shorter than 2000 characters (the raised
`RuntimeError`'s message is the error). -/
def attemptResult : AttemptOutcome → Except String String
  | .exn m => .error m
  | .page b =>
    if SUSPICIOUS_MARKERS.any (fun m => substr m (lowerStr b)) ||
        b.length < 2000 then
      .error "Fetched HTML looks incomplete or bot-defended"
    else .ok b

/-- The attempt loop of `fetch_html` (lines 212-234): `n` attempts remain,
the next one is numbered `attempt`; on failure the loop sleeps
`2 * attempt + jitter attempt` seconds and retries; when attempts are
exhausted the last error is raised (initially "Unknown fetch error"). -/
def fetchGo (outcomes : Nat → AttemptOutcome) (jitter : Nat → ℚ) :
    Nat → Nat → String → Except String String × List ℚ
  | 0, _, lastErr => (.error lastErr, [])
  | n + 1, attempt, _ =>
    match attemptResult (outcomes attempt) with
    | .ok html => (.ok html, [])
    | .error e =>
      let rest := fetchGo outcomes jitter n (attempt + 1) e
      (rest.1, (2 * (attempt : ℚ) + jitter attempt) :: rest.2)

/-- Embedding of `fetch_html` (lines 210-235). -/
def fetch_html (outcomes : Nat → AttemptOutcome) (jitter : Nat → ℚ)
    (maxAttempts : Nat := 4) : Except String String × List ℚ :=
  fetchGo outcomes jitter maxAttempts 1 "Unknown fetch error"

/-! ## Concrete values used by witnesses and counterexamples -/

/-- A clock value used by witness instantiations. -/
def nowW : Date := ⟨2025, 10, 12⟩

/-- A qualifying future record used by the C3 witness. -/
def c3recKeep : Record :=
  { status_text := "2 seats left"
    date_text := "Jan 05 to Feb 20, 2026"
    start_date := some ⟨2026, 1, 5⟩
    end_date := some ⟨2026, 2, 20⟩
    year := some 2026
    seats_left := some 2
    is_full := false }

/-- An undated record (date-parse failure) used by the C3 witness. -/
def c3recUndated : Record :=
  { status_text := "6 seats left"
    date_text := "TBD"
    start_date := none
    end_date := none
    year := none
    seats_left := some 6
    is_full := false }

/-- The record produced from a row whose status text contains both "FULL"
and a positive seat count. -/
def c9record : Record :=
  { status_text := "FULL 6 seats left"
    date_text := "Jan 05 to Feb 20, 2026"
    start_date := some ⟨2026, 1, 5⟩
    end_date := some ⟨2026, 2, 20⟩
    year := some 2026
    seats_left := some 6
    is_full := true }

/-! # Theorems -/

/-- The first accumulator of the record loop is exactly the spec-side
filter-and-map over qualifying records. -/
theorem summarizeLoop_fst (kws : List String) (cutYear : Nat) (now : Date)
    (recs : List Record) :
    (summarizeLoop kws cutYear now recs).1 =
      qualifyingClassifications kws now recs := by
  induction recs with
  | nil => rfl
  | cons rec rest ih =>
    simp only [summarizeLoop, qualifyingClassifications, List.filter_cons] at *
    cases h : rec.start_date with
    | none =>
      simp [isFutureRec, h, ih]
    | some d =>
      by_cases hle : dateLe d now = true
      · simp [isFutureRec, h, hle, ih]
      · by_cases hk : kws.any (fun k => substr k rec.date_text) = true
        · simp [isFutureRec, matchesKeyword, classifySpec, h, hle, hk, ih]
        · simp [isFutureRec, matchesKeyword, h, hle, hk, ih]

/-- The second accumulator of the record loop is exactly the spec-side
filter-and-map for the pre-cutoff list. -/
theorem summarizeLoop_snd (kws : List String) (cutYear : Nat) (now : Date)
    (recs : List Record) :
    (summarizeLoop kws cutYear now recs).2 =
      (recs.filter fun r => isFutureRec now r && preCutoffSpec cutYear r).map
        (fun r => r.date_text ++ ": " ++ r.status_text) := by
  induction recs with
  | nil => rfl
  | cons rec rest ih =>
    simp only [summarizeLoop, List.filter_cons] at *
    cases h : rec.start_date with
    | none =>
      simp [isFutureRec, preCutoffSpec, h, ih]
    | some d =>
      by_cases hle : dateLe d now = true
      · simp [isFutureRec, preCutoffSpec, h, hle, ih]
      · by_cases hy : d.year = cutYear ∧ d.month ≤ 3
        · by_cases ho : (rec.seats_left.isSome ||
              substr "seats left" (lowerStr rec.status_text)) = true
          · simp [isFutureRec, preCutoffSpec, openEvidence, h, hle, hy.1, hy.2,
              ho, ih]
          · simp [isFutureRec, preCutoffSpec, openEvidence, h, hle, hy.1, hy.2,
              ho, ih]
        · simp [isFutureRec, preCutoffSpec, openEvidence, h, hle, hy, ih]

/-- C1: the evaluator's aggregate status over the qualifying records is
"UNKNOWN (no match)" when none qualify; the single distinct classification
when exactly one appears; "MIXED" when several distinct classifications
appear; with the " (<count> intakes)" suffix appended whenever more than
one record qualifies, where the count is the number of qualifying
records. -/
theorem c1_aggregate_status (kws : List String) (cutYear : Nat) (now : Date)
    (records : List Record) :
    (summarize_result kws cutYear now records).specific_status =
      specAggregate (qualifyingClassifications kws now records) := by
  have hfst := summarizeLoop_fst kws cutYear now records
  unfold summarize_result specAggregate
  simp only [hfst]
  by_cases hE : (qualifyingClassifications kws now records).isEmpty
  · simp [hE]
  · simp only [hE, if_false, Bool.false_eq_true]
    cases hq : (qualifyingClassifications kws now records).eraseDups with
    | nil =>
      by_cases hlen : 1 < (qualifyingClassifications kws now records).length <;>
        simp [hq, hlen, ← String.append_assoc]
    | cons c t =>
      cases t with
      | nil =>
        by_cases hlen : 1 < (qualifyingClassifications kws now records).length <;>
          simp [hq, hlen, ← String.append_assoc]
      | cons c2 t2 =>
        by_cases hlen : 1 < (qualifyingClassifications kws now records).length <;>
          simp [hq, hlen, ← String.append_assoc]

/-- C2: a future-dated record enters the specific-intake group iff its
`date_text` contains some configured keyword as a case-sensitive literal
substring, and each qualifying record is classified FULL when `is_full`,
else OPEN when `seats_left` is present or "seats left" occurs
case-insensitively in `status_text`, else UNKNOWN — the group, in record
order, is exactly the spec-side filter of future records by keyword match
mapped through that classification. -/
theorem c2_qualification_classification (kws : List String) (cutYear : Nat)
    (now : Date) (records : List Record) :
    (summarizeLoop kws cutYear now records).1 =
      ((records.filter (isFutureRec now)).filter (matchesKeyword kws)).map
        classifySpec :=
  summarizeLoop_fst kws cutYear now records

/-- C3: a record with an absent `start_date` (date-parse failure) or with a
start date at or before `now` contributes nothing to the summary: deleting
it from the record list leaves the whole evaluation result unchanged. -/
theorem c3_nonfuture_ignored (kws : List String) (cutYear : Nat) (now : Date)
    (recs1 recs2 : List Record) (rec : Record)
    (h : rec.start_date = none ∨
      ∃ d, rec.start_date = some d ∧ dateLe d now = true) :
    summarize_result kws cutYear now (recs1 ++ rec :: recs2) =
      summarize_result kws cutYear now (recs1 ++ recs2) := by
  have key : summarizeLoop kws cutYear now (recs1 ++ rec :: recs2) =
      summarizeLoop kws cutYear now (recs1 ++ recs2) := by
    induction recs1 with
    | nil =>
      simp only [List.nil_append, summarizeLoop]
      rcases h with h | ⟨d, hd, hle⟩
      · simp [h]
      · simp [hd, hle]
    | cons r rs ih =>
      simp only [List.cons_append, summarizeLoop, List.append_eq, ih]
  unfold summarize_result
  rw [key]

/-- Witness for C3: deleting a concrete undated record between a concrete
qualifying record and the empty tail leaves the summary unchanged. -/
theorem c3_witness :
    summarize_result ["Jan 05"] 2026 nowW [c3recKeep, c3recUndated] =
      summarize_result ["Jan 05"] 2026 nowW [c3recKeep] :=
  c3_nonfuture_ignored ["Jan 05"] 2026 nowW [c3recKeep] [] c3recUndated
    (Or.inl rfl)

/-- C4: the evaluator's pre-cutoff list is exactly the strings
"<date_text>: <status_text>" of the future records whose start year equals
the cutoff year, whose start month is at most 3, and which show open-seat
evidence — in record order, independent of the keywords (they do not occur
on the right-hand side) and of `is_full`. -/
theorem c4_pre_cutoff_list (kws : List String) (cutYear : Nat) (now : Date)
    (records : List Record) :
    (summarize_result kws cutYear now records).pre_april_list =
      (records.filter fun r => isFutureRec now r && preCutoffSpec cutYear r).map
        (fun r => r.date_text ++ ": " ++ r.status_text) := by
  have hsnd := summarizeLoop_snd kws cutYear now records
  unfold summarize_result
  simpa using hsnd

/-- C5: on any input whose cleaned text matches the primary pattern
"<Month> <Day> to <Month> <Day>, <Year>" — with genuine month names and
days valid for the trailing year — the parser returns a present start date
and a present end date both carrying that single trailing year, plus the
year itself. -/
theorem c5_primary_pattern (today : Date) (t : String) (w1 w2 : String)
    (d1 d2 y m1 m2 : Nat)
    (hm : matchPrimary (cleanText t) = some (w1, d1, w2, d2, y))
    (h1 : monthOfName w1 = some m1) (h2 : monthOfName w2 = some m2)
    (hd1 : 1 ≤ d1) (hd1b : d1 ≤ daysInMonth y m1)
    (hd2 : 1 ≤ d2) (hd2b : d2 ≤ daysInMonth y m2) :
    parse_date_span today t =
      .ok (some ⟨y, m1, d1⟩, some ⟨y, m2, d2⟩, some y) := by
  simp only [parse_date_span]
  rw [hm]
  simp only [dateutilMDY, h1, h2]
  simp [hd1, hd1b, hd2, hd2b]

/-- Witness for C5: the spec's own example "Jan 05 to Feb 20, 2026" yields
start 2026-01-05, end 2026-02-20, year 2026. -/
theorem c5_witness :
    matchPrimary (cleanText "Jan 05 to Feb 20, 2026") =
      some ("Jan", 5, "Feb", 20, 2026) ∧
    monthOfName "Jan" = some 1 ∧ monthOfName "Feb" = some 2 ∧
    parse_date_span nowW "Jan 05 to Feb 20, 2026" =
      .ok (some ⟨2026, 1, 5⟩, some ⟨2026, 2, 20⟩, some 2026) :=
  ⟨rfl, rfl, rfl,
    c5_primary_pattern nowW "Jan 05 to Feb 20, 2026" "Jan" "Feb" 5 20 2026 1 2
      rfl rfl rfl (by decide) (by decide) (by decide) (by decide)⟩

/-- Counterexample to C6 as stated: on "Foo 05 to Bar 20, 2026" the primary
regex matches textually, the branch is outside the `try`, and the library
parse of the month word "Foo" raises — the parser is not total. -/
theorem c6_counterexample :
    parse_date_span nowW "Foo 05 to Bar 20, 2026" =
      .error "Unknown string format" := rfl

/-- C6 as amended: on every input whose cleaned text does NOT match the
primary textual pattern, the parser is total — the fallback is fully
guarded by `try`/`except`, so the result is always `ok` (all-absent on
failure), never a raised error. -/
theorem c6_total_without_primary (today : Date) (t : String)
    (h : matchPrimary (cleanText t) = none) :
    ∃ r, parse_date_span today t = Except.ok r := by
  simp only [parse_date_span]
  rw [h]
  cases dateutilFree today (String.mk (beforeTo (cleanText t).data)) <;>
    exact ⟨_, rfl⟩

/-- Witness for the amended C6: the spec's own malformed example "???" does
not match the primary pattern and parses to an `ok` result. -/
theorem c6_witness :
    matchPrimary (cleanText "???") = none ∧
    ∃ r, parse_date_span nowW "???" = Except.ok r :=
  ⟨rfl, c6_total_without_primary nowW "???" rfl⟩

/-- C10: every non-raising parser result has the year present iff the start
date is present, and an end date only together with a start date and a
year — never a date without a year, a year without a date, or an end date
without a start date. -/
theorem c10_shape_invariant (today : Date) (t : String)
    (s e : Option Date) (y : Option Nat)
    (h : parse_date_span today t = .ok (s, e, y)) :
    (s.isSome ↔ y.isSome) ∧ (e.isSome → s.isSome ∧ y.isSome) := by
  simp only [parse_date_span] at h
  split at h
  · split at h
    · simp only [Except.ok.injEq, Prod.mk.injEq] at h
      obtain ⟨hs, he, hy⟩ := h
      subst hs; subst he; subst hy
      simp
    · simp at h
  · split at h <;>
      (simp only [Except.ok.injEq, Prod.mk.injEq] at h
       obtain ⟨hs, he, hy⟩ := h
       subst hs; subst he; subst hy
       simp)

/-- Witness for C10: "Jan 05" has month and day but no year, and still
yields a present start date together with the (defaulted) year. -/
theorem c10_witness :
    parse_date_span nowW "Jan 05" = .ok (some ⟨2025, 1, 5⟩, none, some 2025) ∧
    (((some (⟨2025, 1, 5⟩ : Date)).isSome ↔ (some 2025 : Option Nat).isSome) ∧
      ((none : Option Date).isSome →
        (some (⟨2025, 1, 5⟩ : Date)).isSome ∧ (some 2025 : Option Nat).isSome)) :=
  ⟨rfl, c10_shape_invariant nowW "Jan 05" (some ⟨2025, 1, 5⟩) none (some 2025) rfl⟩

/-- When a list contains no table at all, the heading loop finds none:
each matching heading's forward search is over a suffix of the list. -/
theorem primaryScan_eq_none (target : String) (l : List Node)
    (h : ∀ n ∈ l, isTable n = false) : primaryScan target l = none := by
  induction l with
  | nil => rfl
  | cons n rest ih =>
    simp only [primaryScan]
    have hrest : ∀ m ∈ rest, isTable m = false := fun m hm =>
      h m (List.mem_cons_of_mem _ hm)
    have hfind : rest.find? isTable = none :=
      List.find?_eq_none.mpr fun x hx => by simp [hrest x hx]
    by_cases hm : isMatchingHeading target n = true
    · simp [hm, hfind, ih hrest]
    · simp [hm, ih hrest]

/-- The source's heading loop (which moves on to later matching headings
when one has no following table) agrees with the spec's
first-matching-heading reading: if the first matching heading has no
following table, no later heading can have one either, because the forward
search already reached the end of the document. -/
theorem primaryScan_spec (target : String) (l : List Node) :
    primaryScan target l =
      (match specFirstHeadingTable target l with
       | some (some t) => some t
       | _ => none) := by
  induction l with
  | nil => rfl
  | cons n rest ih =>
    simp only [primaryScan, specFirstHeadingTable]
    by_cases hm : isMatchingHeading target n = true
    · simp only [hm, if_true]
      cases hf : rest.find? isTable with
      | some t => simp
      | none =>
        have hno : ∀ m ∈ rest, isTable m = false := by
          intro m hmem
          simpa using List.find?_eq_none.mp hf m hmem
        simp [primaryScan_eq_none target rest hno]
    · simp [hm, ih]

/-- C7: the locator returns the first table following (in document order)
the first heading of level 2-4 whose text contains the target label
case-insensitively; when no heading match yields a table it returns the
first table whose concatenated text matches the month-day date pattern;
and it returns NotFound (`none`) exactly when both strategies fail. -/
theorem c7_table_locator (target : String) (doc : List Node) :
    find_level_table target doc = locateSpec target doc ∧
    (find_level_table target doc = none ↔
      (match specFirstHeadingTable target (subElemsL doc) with
       | some (some _) => False
       | _ => True) ∧ fallbackScan (subElemsL doc) = none) := by
  have hp := primaryScan_spec target (subElemsL doc)
  constructor
  · unfold find_level_table locateSpec
    rw [hp]
    cases hs : specFirstHeadingTable target (subElemsL doc) with
    | none => rfl
    | some o => cases o with
      | none => rfl
      | some t => rfl
  · unfold find_level_table
    rw [hp]
    cases hs : specFirstHeadingTable target (subElemsL doc) with
    | none => cases hf : fallbackScan (subElemsL doc) <;> simp [hf]
    | some o =>
      cases o with
      | none => cases hf : fallbackScan (subElemsL doc) <;> simp [hf]
      | some t => simp

/-- Attempt loop under total failure: every attempt in the window is made,
each failed attempt contributes its backoff sleep, and the final result is
the error of the last attempt (or the initial error when no attempts
remain). -/
theorem fetchGo_all_fail (o : Nat → AttemptOutcome) (j : Nat → ℚ)
    (msgs : Nat → String) :
    ∀ (n attempt : Nat) (lastErr : String),
      (∀ a, attempt ≤ a → a < attempt + n →
        attemptResult (o a) = .error (msgs a)) →
      fetchGo o j n attempt lastErr =
        (.error (if n = 0 then lastErr else msgs (attempt + n - 1)),
         (List.range n).map fun i =>
           2 * ((attempt + i : Nat) : ℚ) + j (attempt + i)) := by
  intro n
  induction n with
  | zero => intro attempt lastErr _; simp [fetchGo]
  | succ m ih =>
    intro attempt lastErr h
    have hcur : attemptResult (o attempt) = .error (msgs attempt) :=
      h attempt le_rfl (by omega)
    simp only [fetchGo, hcur]
    rw [ih (attempt + 1) (msgs attempt) (fun a ha hb => h a (by omega) (by omega))]
    simp only [Prod.mk.injEq]
    constructor
    · rcases Nat.eq_zero_or_pos m with hm | hm
      · subst hm; simp
      · have e1 : attempt + 1 + m - 1 = attempt + (m + 1) - 1 := by omega
        rw [if_neg (Nat.pos_iff_ne_zero.mp hm), if_neg (by omega : ¬(m + 1 = 0)), e1]
    · rw [List.range_succ_eq_map, List.map_cons, List.map_map]
      simp only [Nat.add_zero]
      refine congrArg (fun l => _ :: l) ?_
      refine List.map_congr_left fun a _ => ?_
      have : attempt + 1 + a = attempt + (a + 1) := by omega
      simp [Function.comp, this]

/-- Attempt loop with a first success at attempt `k`: the successful body is
returned and only the earlier failed attempts contribute sleeps. -/
theorem fetchGo_first_ok (o : Nat → AttemptOutcome) (j : Nat → ℚ) (b : String) :
    ∀ (n attempt k : Nat) (lastErr : String),
      attempt ≤ k → k < attempt + n →
      (∀ a, attempt ≤ a → a < k → ∃ m, attemptResult (o a) = .error m) →
      attemptResult (o k) = .ok b →
      fetchGo o j n attempt lastErr =
        (.ok b, (List.range (k - attempt)).map fun i =>
          2 * ((attempt + i : Nat) : ℚ) + j (attempt + i)) := by
  intro n
  induction n with
  | zero => intro attempt k lastErr h1 h2 _ _; omega
  | succ m ih =>
    intro attempt k lastErr hak hk hfail hok
    by_cases hka : k = attempt
    · subst hka
      simp only [fetchGo, hok]
      simp
    · have hlt : attempt < k := lt_of_le_of_ne hak (Ne.symm hka)
      obtain ⟨msg, hmsg⟩ := hfail attempt le_rfl hlt
      simp only [fetchGo, hmsg]
      rw [ih (attempt + 1) k msg (by omega) (by omega)
        (fun a ha hb => hfail a (by omega) hb) hok]
      simp only [Prod.mk.injEq, true_and]
      have hsub : k - attempt = (k - (attempt + 1)) + 1 := by omega
      rw [hsub, List.range_succ_eq_map, List.map_cons, List.map_map]
      simp only [Nat.add_zero]
      refine congrArg (fun l => _ :: l) ?_
      refine List.map_congr_left fun a _ => ?_
      have : attempt + 1 + a = attempt + (a + 1) := by omega
      simp [Function.comp, this]

/-- C8: under the injected jitter (each value in [0, 1.5)) and a positive
attempt budget: when every attempt is rejected (request exception, or body
failing the marker/length test), the fetcher makes exactly `maxAttempts`
attempts, sleeps `2 * attempt + jitter attempt` seconds after each failed
attempt (each sleep within [2*attempt, 2*attempt + 1.5)), and ends with
the error of the last attempt; while a first acceptable response at
attempt `k` is returned immediately, with only the `k - 1` earlier sleeps
performed. -/
theorem c8_fetch_retry (o : Nat → AttemptOutcome) (j : Nat → ℚ)
    (maxA : Nat) (msgs : Nat → String)
    (hj : ∀ n, 0 ≤ j n ∧ j n < 3 / 2) (hmax : 0 < maxA) :
    ((∀ a, 1 ≤ a → a ≤ maxA → attemptResult (o a) = .error (msgs a)) →
      fetch_html o j maxA =
        (.error (msgs maxA),
         (List.range maxA).map fun i => 2 * ((i + 1 : Nat) : ℚ) + j (i + 1)) ∧
      ∀ i : Nat, 2 * ((i + 1 : Nat) : ℚ) ≤ 2 * ((i + 1 : Nat) : ℚ) + j (i + 1) ∧
        2 * ((i + 1 : Nat) : ℚ) + j (i + 1) < 2 * ((i + 1 : Nat) : ℚ) + 3 / 2) ∧
    (∀ k b, 1 ≤ k → k ≤ maxA →
      (∀ a, 1 ≤ a → a < k → attemptResult (o a) = .error (msgs a)) →
      attemptResult (o k) = .ok b →
      fetch_html o j maxA =
        (.ok b,
         (List.range (k - 1)).map fun i => 2 * ((i + 1 : Nat) : ℚ) + j (i + 1))) := by
  constructor
  · intro hfail
    constructor
    · unfold fetch_html
      rw [fetchGo_all_fail o j msgs maxA 1 "Unknown fetch error"
        (fun a ha hb => hfail a ha (by omega))]
      simp only [Prod.mk.injEq]
      refine ⟨?_, ?_⟩
      · rw [if_neg (Nat.pos_iff_ne_zero.mp hmax)]
        have h1 : 1 + maxA - 1 = maxA := by omega
        rw [h1]
      · refine List.map_congr_left fun a _ => ?_
        have e : 1 + a = a + 1 := by omega
        rw [e]
    · intro i
      have := hj (i + 1)
      constructor <;> linarith [this.1, this.2]
  · intro k b hk1 hkm hfail hok
    unfold fetch_html
    rw [fetchGo_first_ok o j b maxA 1 k "Unknown fetch error" hk1 (by omega)
      (fun a ha hb => ⟨msgs a, hfail a ha hb⟩) hok]
    simp only [Prod.mk.injEq, true_and]
    refine List.map_congr_left fun a _ => ?_
    have e : 1 + a = a + 1 := by omega
    rw [e]

/-- Witness for C8: four attempts that all raise "boom", jitter constantly
1: the result is the error "boom" after sleeps 2*a + 1 for attempts 1-4. -/
theorem c8_witness :
    fetch_html (fun _ => .exn "boom") (fun _ => 1) 4 =
      (.error "boom",
       (List.range 4).map fun i => 2 * ((i + 1 : Nat) : ℚ) + 1) :=
  ((c8_fetch_retry (fun _ => .exn "boom") (fun _ => 1) 4 (fun _ => "boom")
      (fun _ => ⟨by norm_num, by norm_num⟩) (by norm_num)).1
    (fun _ _ _ => rfl)).1

/-- The executable substring test agrees with `List.IsInfix`. -/
theorem substrAux_iff_occurs (nd hay : List Char) :
    substrAux nd hay = true ↔ nd <:+: hay := by
  induction hay with
  | nil => simp [substrAux, List.isEmpty_iff, List.infix_nil]
  | cons c rest ih =>
    simp [substrAux, List.infix_cons_iff, ih]

/-- A valid code point below the surrogate range round-trips through
`Char.ofNat`. -/
theorem toNat_ofNat_lt (m : Nat) (h : m < 55296) : (Char.ofNat m).toNat = m := by
  have hv : Nat.isValidChar m := Or.inl h
  rw [Char.ofNat, dif_pos hv]
  simp [Char.ofNatAux, Char.toNat, UInt32.toNat]

/-- Lowercasing after uppercasing is plain lowercasing (all code points). -/
theorem toLower_toUpper (c : Char) : c.toUpper.toLower = c.toLower := by
  unfold Char.toUpper
  by_cases h : c.toNat ≥ 97 ∧ c.toNat ≤ 122
  · rw [if_pos h]
    unfold Char.toLower
    have ht : (Char.ofNat (c.toNat - 32)).toNat = c.toNat - 32 :=
      toNat_ofNat_lt _ (by omega)
    rw [ht]
    rw [if_pos (by omega : (c.toNat - 32) ≥ 65 ∧ (c.toNat - 32) ≤ 90)]
    rw [if_neg (by omega : ¬(c.toNat ≥ 65 ∧ c.toNat ≤ 90))]
    have : c.toNat - 32 + 32 = c.toNat := by omega
    rw [this, Char.ofNat_toNat]
  · rw [if_neg h]

/-- Lowercasing an uppercased character list is lowercasing it. -/
theorem map_toLower_map_toUpper (cs : List Char) :
    (cs.map Char.toUpper).map Char.toLower = cs.map Char.toLower := by
  rw [List.map_map]
  exact List.map_congr_left fun c _ => toLower_toUpper c

/-- A successful tail match of the seats pattern exhibits "left" in the
(lowercased) tail. -/
theorem seatsFinish_left (ds r2 : List Char) (n : Nat)
    (h : seatsFinish ds r2 = some n) : ['l', 'e', 'f', 't'] <:+: r2 := by
  unfold seatsFinish at h
  split at h
  · simp at h
  · split at h
    · next tl heq =>
      have hpre : ['l', 'e', 'f', 't'] <+: r2.dropWhile isWs :=
        ⟨tl, by simp [heq]⟩
      exact hpre.isInfix.trans (List.dropWhile_suffix isWs).isInfix
    · simp at h

/-- A match of the seats pattern at a position exhibits "seat" and "left"
in the lowercased text from that position on. -/
theorem seatsAt_markers (cs : List Char) (n : Nat) (h : seatsAt cs = some n) :
    ['s', 'e', 'a', 't'] <:+: cs.map Char.toLower ∧
      ['l', 'e', 'f', 't'] <:+: cs.map Char.toLower := by
  simp only [seatsAt] at h
  split at h
  · simp at h
  · split at h
    · simp at h
    · split at h
      · next rest heq =>
        have hdrop : ((cs.dropWhile Char.isDigit).dropWhile isWs).map
            Char.toLower <:+: cs.map Char.toLower :=
          ((((List.dropWhile_suffix isWs).map Char.toLower).trans
            ((List.dropWhile_suffix Char.isDigit).map Char.toLower))).isInfix
        have hseat : ['s', 'e', 'a', 't'] <+:
            ((cs.dropWhile Char.isDigit).dropWhile isWs).map Char.toLower :=
          ⟨rest, by simp [heq]⟩
        have hrest : rest <:+
            ((cs.dropWhile Char.isDigit).dropWhile isWs).map Char.toLower :=
          ⟨['s', 'e', 'a', 't'], by simp [heq]⟩
        refine ⟨hseat.isInfix.trans hdrop, ?_⟩
        have hleft : ['l', 'e', 'f', 't'] <:+: rest := by
          split at h
          · next r =>
            exact (seatsFinish_left _ _ _ h).trans
              (List.suffix_cons 's' r).isInfix
          · exact seatsFinish_left _ _ _ h
        exact hleft.trans (hrest.isInfix.trans hdrop)
      · simp at h

/-- A seats-pattern search hit exhibits "seat" and "left" in the lowercased
text. -/
theorem seatsSearch_markers (cs : List Char) (n : Nat)
    (h : seatsSearch cs = some n) :
    ['s', 'e', 'a', 't'] <:+: cs.map Char.toLower ∧
      ['l', 'e', 'f', 't'] <:+: cs.map Char.toLower := by
  induction cs with
  | nil => simp [seatsSearch] at h
  | cons c rest ih =>
    simp only [seatsSearch] at h
    split at h
    · next m hat =>
      cases h
      exact seatsAt_markers _ _ hat
    · have hr := ih h
      have hsuf : rest.map Char.toLower <:+ (c :: rest).map Char.toLower :=
        (List.suffix_cons c rest).map Char.toLower
      exact ⟨hr.1.trans hsuf.isInfix, hr.2.trans hsuf.isInfix⟩

/-- Counterexample to C9 as stated: from a row whose status cell reads
"FULL 6 seats left", the row parser produces a record with `is_full` true
and the positive `seats_left` 6 at the same time — the source never
enforces the exclusion. -/
theorem c9_counterexample :
    scrapeRows nowW
        [["Status", "Dates"], ["FULL 6 seats left", "Jan 05 to Feb 20, 2026"]] =
      .ok [c9record] ∧
    c9record.is_full = true ∧ c9record.seats_left = some 6 :=
  ⟨rfl, rfl, rfl⟩

/-- C9 as amended: `is_full` and a present `seats_left` can co-occur; they
do so only when the status text itself carries both markers — whenever
both flags are set, the lowercased status text necessarily contains
"full", "seat" and "left" as substrings. -/
theorem c9_full_seats_cooccur (s : String) (n : Nat)
    (hseats : _extract_seats s = some n) (hfull : _is_full s = true) :
    substr "full" (lowerStr s) = true ∧ substr "seat" (lowerStr s) = true ∧
      substr "left" (lowerStr s) = true := by
  have hsl := seatsSearch_markers s.data n hseats
  refine ⟨?_, ?_, ?_⟩
  · have hinf : ("FULL".data : List Char) <:+: s.data.map Char.toUpper :=
      (substrAux_iff_occurs _ _).mp hfull
    have hlow : ("FULL".data.map Char.toLower) <:+:
        (s.data.map Char.toUpper).map Char.toLower := hinf.map Char.toLower
    rw [map_toLower_map_toUpper] at hlow
    exact (substrAux_iff_occurs _ _).mpr hlow
  · exact (substrAux_iff_occurs _ _).mpr hsl.1
  · exact (substrAux_iff_occurs _ _).mpr hsl.2

/-- Witness for the amended C9: at "FULL 6 seats left" both flags are set
and all three markers are present. -/
theorem c9_witness :
    _extract_seats "FULL 6 seats left" = some 6 ∧
    _is_full "FULL 6 seats left" = true ∧
    (substr "full" (lowerStr "FULL 6 seats left") = true ∧
      substr "seat" (lowerStr "FULL 6 seats left") = true ∧
      substr "left" (lowerStr "FULL 6 seats left") = true) :=
  ⟨rfl, rfl, c9_full_seats_cooccur "FULL 6 seats left" 6 rfl rfl⟩

end BCIT
